import Mathlib

/-!
Verification of the keyboard-shortcut dispatch engine in
`src/renderer/src/hooks/useKeyboard.ts` (lossless-cut).

The engine is embedded shallowly:
* the binding normalizer (`keyBindingsByPrimaryKey` reducer) becomes
  `normalizeKeyBinding` / `keyBindingsByPrimaryKey`;
* the matcher (`matchingKeyBinding` in `handleKeyEvent`) becomes
  `bindingMatches` / `matchingKeyBinding`;
* the per-event handler (`handleKeyEvent`, `onKeyDown2`, `onKeyUp2`) becomes
  `handleKeyEvent`, `onKeyDown2`, `onKeyUp2` over an explicit `EngineState`;
* the window-level listeners (keydown / keyup / blur) become `processEvent`
  folded over a list of `HostEvent`s by `runEvents`.

JavaScript `Set<string>` values (`nonModifierKeysDownRef`,
`extraNonModifierKeys`) are represented as `List String` used only through
membership; `Set.add` becomes `addKey` (no-op when present) and `Set.delete`
becomes `removeKey` (removes every occurrence, as a set has no duplicates).
-/

namespace UseKeyboard

/-- `e.code` values and combination tokens are plain strings. -/
abbrev KeyCode := String

/-- Modelled from the spec: the modifier name sets `controlModifiers`,
`shiftModifiers`, `altModifiers`, `metaModifiers` are imported from
`../util`, which is outside the provided source. Per the spec (§4.1), each
logical modifier's name set covers the logical token used in combination
strings and both physical left/right key codes. -/
def controlModifiers : List String := ["ctrl", "ControlLeft", "ControlRight"]

/-- Modelled from the spec: see `controlModifiers`. -/
def shiftModifiers : List String := ["shift", "ShiftLeft", "ShiftRight"]

/-- Modelled from the spec: see `controlModifiers`. -/
def altModifiers : List String := ["alt", "AltLeft", "AltRight"]

/-- Modelled from the spec: see `controlModifiers`. -/
def metaModifiers : List String := ["meta", "MetaLeft", "MetaRight"]

/-- Modelled from the spec: `allModifiers` (from `../util`) is the union of
the four modifier name sets. -/
def allModifiers : List String :=
  controlModifiers ++ shiftModifiers ++ altModifiers ++ metaModifiers

/-- A raw configured binding: `{ keys: string, action: string }`. -/
structure KeyBinding where
  keys : String
  action : String
deriving DecidableEq, Repr

/-- `NormalizedKeyBinding` from the `useEffect` body: the raw binding plus
the derived primary key, extra non-modifier keys and modifier require
flags. -/
structure NormalizedKeyBinding where
  keys : String
  action : String
  primaryKey : String
  extraNonModifierKeys : List String
  requireCtrl : Bool
  requireShift : Bool
  requireAlt : Bool
  requireMeta : Bool
deriving DecidableEq, Repr

/-- JavaScript `kb.keys.split('+')` (string separator, no limit):
accumulates characters up to each `'+'`. `splitTokensAux cs acc` processes
the remaining characters `cs` with the current (reversed) token `acc`. -/
def splitTokensAux : List Char → List Char → List String
  | [], acc => [String.mk acc.reverse]
  | c :: rest, acc =>
      if c = '+' then String.mk acc.reverse :: splitTokensAux rest []
      else splitTokensAux rest (c :: acc)

/-- `s.split('+')` — e.g. `"" ↦ [""]`, `"shift+a" ↦ ["shift", "a"]`. -/
def splitOnPlus (s : String) : List String := splitTokensAux s.data []

/-- The body of the `keyBindings.reduce` step for one raw binding:
split the combination, drop known-modifier tokens, take the last remaining
token as `primaryKey` (`nonModifierKeys.at(-1)`), the earlier ones as
`extraNonModifierKeys`, and compute the four require flags by
`keys.some((key) => <set>.has(key))`. Returns `none` when
`nonModifierKeys.length === 0` (the entry is skipped). -/
def normalizeKeyBinding (kb : KeyBinding) : Option NormalizedKeyBinding :=
  let keys := splitOnPlus kb.keys
  let nonModifierKeys := keys.filter (fun key => !allModifiers.contains key)
  match nonModifierKeys.getLast? with
  | none => none
  | some primaryKey =>
      some { keys := kb.keys
             action := kb.action
             primaryKey := primaryKey
             extraNonModifierKeys := nonModifierKeys.dropLast
             requireCtrl := keys.any (fun key => controlModifiers.contains key)
             requireShift := keys.any (fun key => shiftModifiers.contains key)
             requireAlt := keys.any (fun key => altModifiers.contains key)
             requireMeta := keys.any (fun key => metaModifiers.contains key) }

/-- `keyBindingsByPrimaryKey[code] ?? []`: the source groups normalized
bindings into a record keyed by `primaryKey`, preserving input order within
each group; indexing that record at `code` yields exactly the normalized
bindings whose `primaryKey` is `code`, in input order. -/
def keyBindingsByPrimaryKey (keyBindings : List KeyBinding) (code : KeyCode) :
    List NormalizedKeyBinding :=
  (keyBindings.filterMap normalizeKeyBinding).filter (fun kb => kb.primaryKey == code)

/-- A keyboard event as the engine reads it: the physical code, the four
live modifier flags, and whether `e.target === document.body`. -/
structure KeyEvent where
  code : KeyCode
  ctrlKey : Bool
  shiftKey : Bool
  altKey : Bool
  metaKey : Bool
  targetIsBody : Bool
deriving DecidableEq, Repr

/-- The predicate of the `.find((kb) => ...)` in `handleKeyEvent`: the four
require flags must equal the event's live modifier flags exactly, and every
extra non-modifier key must be in the pressed set. -/
def bindingMatches (pressedNonModifiers : List KeyCode)
    (ctrl shiftHeld altHeld metaHeld : Bool) (kb : NormalizedKeyBinding) : Bool :=
  if kb.requireCtrl != ctrl then false
  else if kb.requireShift != shiftHeld then false
  else if kb.requireAlt != altHeld then false
  else if kb.requireMeta != metaHeld then false
  else kb.extraNonModifierKeys.all (fun requiredKey =>
    pressedNonModifiers.contains requiredKey)

/-- `matchingKeyBinding` in `handleKeyEvent`: first match in input order
among the candidates indexed by the event's code. -/
def matchingKeyBinding (keyBindings : List KeyBinding)
    (pressedNonModifiers : List KeyCode) (e : KeyEvent) :
    Option NormalizedKeyBinding :=
  (keyBindingsByPrimaryKey keyBindings e.code).find?
    (bindingMatches pressedNonModifiers e.ctrlKey e.shiftKey e.altKey e.metaKey)

/-- The collaborator-supplied props of the hook, with the external callbacks
abstracted to the observations the engine makes of them:
`keyUpActionExists a` says `keyUpActions[a]` is defined, and
`actionResolves a` says `getKeyboardAction(a)` returns a non-null handler. -/
structure HookProps where
  keyBindings : List KeyBinding
  keyUpActionExists : String → Bool
  actionResolves : String → Bool
  exportConfirmOpen : Bool

/-- The engine's private mutable state: `altActionRef.current` and
`nonModifierKeysDownRef.current`. -/
structure EngineState where
  altAction : Bool
  pressedNonModifiers : List KeyCode
deriving DecidableEq, Repr

/-- `new Set()` / fresh refs: flag false, no pressed keys. -/
def initialState : EngineState := { altAction := false, pressedNonModifiers := [] }

/-- JavaScript `Set.add`: no-op when the code is already present. -/
def addKey (pressed : List KeyCode) (code : KeyCode) : List KeyCode :=
  if pressed.contains code then pressed else pressed ++ [code]

/-- JavaScript `Set.delete`: afterwards the code is not a member. -/
def removeKey (pressed : List KeyCode) (code : KeyCode) : List KeyCode :=
  pressed.filter (fun k => k != code)

/-- Outcome of `onKeyDown2` for one event: which action's trigger handler
ran (if any), whether the event was consumed, whether `closeExportConfirm`
was called, and whether `altActionRef.current = true` was executed. -/
structure DownResult where
  invoked : Option String
  defaultPrevented : Bool
  propagationStopped : Bool
  closedExportConfirm : Bool
  setAltAction : Bool
deriving DecidableEq, Repr

/-- The early-return outcome of `onKeyDown2`: nothing happened. -/
def downNoop : DownResult :=
  { invoked := none, defaultPrevented := false, propagationStopped := false,
    closedExportConfirm := false, setAltAction := false }

/-- `onKeyDown2`: the export-confirm dialog gate (escape closes and
consumes; only the `export` action passes while open), then the
`e.target !== document.body` gate, then action resolution and invocation
with `preventDefault` / `stopPropagation` and the Alt flag update. -/
def onKeyDown2 (props : HookProps) (e : KeyEvent) (action : Option String) :
    DownResult :=
  let isEscape := e.code == "Escape"
  if props.exportConfirmOpen then
    if isEscape then
      { invoked := none, defaultPrevented := true, propagationStopped := true,
        closedExportConfirm := true, setAltAction := false }
    else if action != some "export" then
      downNoop
    else if !e.targetIsBody then
      downNoop
    else
      match action with
      | none => downNoop
      | some a =>
          if props.actionResolves a then
            { invoked := some a, defaultPrevented := true, propagationStopped := true,
              closedExportConfirm := false, setAltAction := e.altKey }
          else downNoop
  else if !e.targetIsBody then
    downNoop
  else
    match action with
    | none => downNoop
    | some a =>
        if props.actionResolves a then
          { invoked := some a, defaultPrevented := true, propagationStopped := true,
            closedExportConfirm := false, setAltAction := e.altKey }
        else downNoop

/-- `onKeyUp2`: `const fn = action && keyUpActions[action]; fn?.()` —
returns the action whose key-up handler was invoked, if any. -/
def onKeyUp2 (props : HookProps) (action : Option String) : Option String :=
  match action with
  | none => none
  | some a => if props.keyUpActionExists a then some a else none

/-- `'keydown' | 'keyup'`. -/
inductive EvKind where
  | keydown
  | keyup
deriving DecidableEq, Repr

/-- The full observable outcome of `handleKeyEvent` on one event. -/
structure EventResult where
  state : EngineState
  matchedAction : Option String
  invokedDownAction : Option String
  invokedUpAction : Option String
  defaultPrevented : Bool
  propagationStopped : Bool
  closedExportConfirm : Bool
deriving DecidableEq, Repr

/-- `handleKeyEvent`: Alt-release suppression, pressed-set add on keydown,
early return for pure modifier events, binding match, dispatch to
`onKeyUp2` / `onKeyDown2`, and pressed-set delete on keyup (after
dispatch). -/
def handleKeyEvent (props : HookProps) (st : EngineState) (e : KeyEvent)
    (ev : EvKind) : EventResult :=
  let altSuppress := ev == EvKind.keyup && st.altAction &&
    (e.code == "AltLeft" || e.code == "AltRight")
  let altAction1 := if altSuppress then false else st.altAction
  let isModifier := allModifiers.contains e.code
  let pressed1 :=
    if ev == EvKind.keydown && !isModifier then addKey st.pressedNonModifiers e.code
    else st.pressedNonModifiers
  if isModifier then
    { state := { altAction := altAction1, pressedNonModifiers := pressed1 },
      matchedAction := none, invokedDownAction := none, invokedUpAction := none,
      defaultPrevented := altSuppress, propagationStopped := false,
      closedExportConfirm := false }
  else
    let matched := matchingKeyBinding props.keyBindings pressed1 e
    let matchedAction := matched.map (fun kb => kb.action)
    match ev with
    | EvKind.keyup =>
        { state := { altAction := altAction1,
                     pressedNonModifiers := removeKey pressed1 e.code },
          matchedAction := matchedAction, invokedDownAction := none,
          invokedUpAction := onKeyUp2 props matchedAction,
          defaultPrevented := altSuppress, propagationStopped := false,
          closedExportConfirm := false }
    | EvKind.keydown =>
        let dr := onKeyDown2 props e matchedAction
        { state := { altAction := altAction1 || dr.setAltAction,
                     pressedNonModifiers := pressed1 },
          matchedAction := matchedAction, invokedDownAction := dr.invoked,
          invokedUpAction := none,
          defaultPrevented := altSuppress || dr.defaultPrevented,
          propagationStopped := dr.propagationStopped,
          closedExportConfirm := dr.closedExportConfirm }

/-- The window-level occurrences the engine listens for: key events and
window blur (`clearPressedNonModifiers`). -/
inductive HostEvent where
  | key (e : KeyEvent) (ev : EvKind)
  | blur
deriving DecidableEq, Repr

/-- State transition for one host occurrence; `blur` runs
`clearPressedNonModifiers` (`nonModifierKeysDownRef.current.clear()`). -/
def processEvent (props : HookProps) (st : EngineState) : HostEvent → EngineState
  | HostEvent.key e ev => (handleKeyEvent props st e ev).state
  | HostEvent.blur => { st with pressedNonModifiers := [] }

/-- Process a sequence of host occurrences in delivery order. -/
def runEvents (props : HookProps) (st : EngineState) (evs : List HostEvent) :
    EngineState :=
  evs.foldl (processEvent props) st

/-- Concrete props for the spec's example scenarios: every action resolves
to a handler and has a key-up handler registered. -/
def exProps (kbs : List KeyBinding) (confirmOpen : Bool) : HookProps :=
  { keyBindings := kbs, keyUpActionExists := fun _ => true,
    actionResolves := fun _ => true, exportConfirmOpen := confirmOpen }

/-- The propositional reading of a structural match: require flags equal
the live modifier flags exactly and every extra key is pressed. -/
def MatchesSpec (pressed : List KeyCode) (e : KeyEvent)
    (kb : NormalizedKeyBinding) : Prop :=
  kb.requireCtrl = e.ctrlKey ∧ kb.requireShift = e.shiftKey ∧
    kb.requireAlt = e.altKey ∧ kb.requireMeta = e.metaKey ∧
    ∀ k ∈ kb.extraNonModifierKeys, k ∈ pressed

/-- Host occurrences that cannot change whether `code` is in the pressed
set: key events for a different code, and key events for `code` itself when
`code` is a modifier (the tracker ignores modifier codes). Window blur is
never irrelevant — it clears the whole set. -/
def IrrelevantTo (code : KeyCode) : HostEvent → Prop
  | HostEvent.key e _ => e.code = code → allModifiers.contains code = true
  | HostEvent.blur => False

/-- The most recent key event for `code` in `evs` was a key-down of the
non-modifier code, and no window blur (nor any other key event for `code`)
occurred after it. -/
def LastEventDown (code : KeyCode) (evs : List HostEvent) : Prop :=
  ∃ l₁ e l₂, evs = l₁ ++ HostEvent.key e EvKind.keydown :: l₂ ∧
    e.code = code ∧ allModifiers.contains code = false ∧
    ∀ ev ∈ l₂, IrrelevantTo code ev

theorem contains_iff_mem (l : List String) (a : String) :
    l.contains a = true ↔ a ∈ l := by
  simp [List.contains]

theorem bindingMatches_iff (pressed : List KeyCode) (e : KeyEvent)
    (kb : NormalizedKeyBinding) :
    bindingMatches pressed e.ctrlKey e.shiftKey e.altKey e.metaKey kb = true ↔
      MatchesSpec pressed e kb := by
  unfold bindingMatches MatchesSpec
  repeat' split
  all_goals simp_all [List.all_eq_true, contains_iff_mem]

theorem onKeyDown2_invoked_iff (props : HookProps) (e : KeyEvent)
    (action : Option String) (a : String) :
    (onKeyDown2 props e action).invoked = some a ↔
      (action = some a ∧ props.actionResolves a = true ∧ e.targetIsBody = true ∧
        ¬(props.exportConfirmOpen = true ∧ e.code = "Escape") ∧
        (props.exportConfirmOpen = true → a = "export")) := by
  unfold onKeyDown2
  by_cases hesc : e.code = "Escape"
  all_goals repeat' split
  all_goals simp_all [downNoop]
  all_goals (try (rintro rfl; simp_all))

theorem onKeyDown2_consumed (props : HookProps) (e : KeyEvent)
    (action : Option String) :
    ((onKeyDown2 props e action).defaultPrevented =
      (onKeyDown2 props e action).propagationStopped) ∧
    ((onKeyDown2 props e action).defaultPrevented = true ↔
      ((onKeyDown2 props e action).invoked.isSome = true ∨
        (props.exportConfirmOpen = true ∧ e.code = "Escape"))) := by
  unfold onKeyDown2
  by_cases hesc : e.code = "Escape"
  all_goals repeat' split
  all_goals simp_all [downNoop]

theorem onKeyDown2_setAltAction (props : HookProps) (e : KeyEvent)
    (action : Option String) :
    (onKeyDown2 props e action).setAltAction = true ↔
      ((onKeyDown2 props e action).invoked.isSome = true ∧ e.altKey = true) := by
  unfold onKeyDown2
  by_cases hesc : e.code = "Escape"
  all_goals repeat' split
  all_goals simp_all [downNoop]

theorem handleKeyEvent_modifier (props : HookProps) (st : EngineState)
    (e : KeyEvent) (ev : EvKind) (h : allModifiers.contains e.code = true) :
    handleKeyEvent props st e ev =
      { state := { altAction := if ev == EvKind.keyup && st.altAction &&
                     (e.code == "AltLeft" || e.code == "AltRight") then false
                   else st.altAction,
                   pressedNonModifiers := st.pressedNonModifiers },
        matchedAction := none, invokedDownAction := none, invokedUpAction := none,
        defaultPrevented := ev == EvKind.keyup && st.altAction &&
          (e.code == "AltLeft" || e.code == "AltRight"),
        propagationStopped := false, closedExportConfirm := false } := by
  have h2 : e.code ∈ allModifiers := (contains_iff_mem _ _).mp h
  unfold handleKeyEvent
  cases ev <;> simp [h2]

theorem handleKeyEvent_keydown_nonmod (props : HookProps) (st : EngineState)
    (e : KeyEvent) (h : allModifiers.contains e.code = false) :
    handleKeyEvent props st e EvKind.keydown =
      { state := { altAction := st.altAction ||
                     (onKeyDown2 props e
                       ((matchingKeyBinding props.keyBindings
                         (addKey st.pressedNonModifiers e.code) e).map
                           (fun kb => kb.action))).setAltAction,
                   pressedNonModifiers := addKey st.pressedNonModifiers e.code },
        matchedAction := (matchingKeyBinding props.keyBindings
          (addKey st.pressedNonModifiers e.code) e).map (fun kb => kb.action),
        invokedDownAction := (onKeyDown2 props e
          ((matchingKeyBinding props.keyBindings
            (addKey st.pressedNonModifiers e.code) e).map
              (fun kb => kb.action))).invoked,
        invokedUpAction := none,
        defaultPrevented := (onKeyDown2 props e
          ((matchingKeyBinding props.keyBindings
            (addKey st.pressedNonModifiers e.code) e).map
              (fun kb => kb.action))).defaultPrevented,
        propagationStopped := (onKeyDown2 props e
          ((matchingKeyBinding props.keyBindings
            (addKey st.pressedNonModifiers e.code) e).map
              (fun kb => kb.action))).propagationStopped,
        closedExportConfirm := (onKeyDown2 props e
          ((matchingKeyBinding props.keyBindings
            (addKey st.pressedNonModifiers e.code) e).map
              (fun kb => kb.action))).closedExportConfirm } := by
  have h2 : ¬ e.code ∈ allModifiers := by
    rw [← contains_iff_mem, h]; simp
  unfold handleKeyEvent
  simp [h2]

theorem handleKeyEvent_keyup_nonmod (props : HookProps) (st : EngineState)
    (e : KeyEvent) (h : allModifiers.contains e.code = false) :
    handleKeyEvent props st e EvKind.keyup =
      { state := { altAction := if st.altAction &&
                     (e.code == "AltLeft" || e.code == "AltRight") then false
                   else st.altAction,
                   pressedNonModifiers := removeKey st.pressedNonModifiers e.code },
        matchedAction := (matchingKeyBinding props.keyBindings
          st.pressedNonModifiers e).map (fun kb => kb.action),
        invokedDownAction := none,
        invokedUpAction := onKeyUp2 props
          ((matchingKeyBinding props.keyBindings st.pressedNonModifiers e).map
            (fun kb => kb.action)),
        defaultPrevented := st.altAction &&
          (e.code == "AltLeft" || e.code == "AltRight"),
        propagationStopped := false, closedExportConfirm := false } := by
  have h2 : ¬ e.code ∈ allModifiers := by
    rw [← contains_iff_mem, h]; simp
  unfold handleKeyEvent
  simp [h2]

/-- C1: for every key event, the binding selected for dispatch is the first
candidate (in input order) whose four require flags exactly equal the
event's live modifier flags and whose extra non-modifier keys are all in
the pressed-key set; with bindings "a" → actionX and "shift+a" → actionY, a
key-down of a with shift held selects and dispatches actionY only; a
binding "b+a" requiring extra key b dispatches on a press of a exactly
while b is in the pressed-key set. -/
theorem matchingKeyBinding_first_exact :
    (∀ (kbs : List KeyBinding) (pressed : List KeyCode) (e : KeyEvent)
        (kb : NormalizedKeyBinding),
      matchingKeyBinding kbs pressed e = some kb ↔
        (MatchesSpec pressed e kb ∧
          ∃ l₁ l₂, keyBindingsByPrimaryKey kbs e.code = l₁ ++ kb :: l₂ ∧
            ∀ kb' ∈ l₁, ¬ MatchesSpec pressed e kb')) ∧
    ((handleKeyEvent (exProps [⟨"a", "actionX"⟩, ⟨"shift+a", "actionY"⟩] false)
        initialState
        { code := "a", ctrlKey := false, shiftKey := true, altKey := false,
          metaKey := false, targetIsBody := true } EvKind.keydown).matchedAction
        = some "actionY" ∧
      (handleKeyEvent (exProps [⟨"a", "actionX"⟩, ⟨"shift+a", "actionY"⟩] false)
        initialState
        { code := "a", ctrlKey := false, shiftKey := true, altKey := false,
          metaKey := false, targetIsBody := true } EvKind.keydown).invokedDownAction
        = some "actionY") ∧
    ((handleKeyEvent (exProps [⟨"b+a", "actionZ"⟩] false)
        { altAction := false, pressedNonModifiers := ["b"] }
        { code := "a", ctrlKey := false, shiftKey := false, altKey := false,
          metaKey := false, targetIsBody := true } EvKind.keydown).invokedDownAction
        = some "actionZ" ∧
      (handleKeyEvent (exProps [⟨"b+a", "actionZ"⟩] false)
        initialState
        { code := "a", ctrlKey := false, shiftKey := false, altKey := false,
          metaKey := false, targetIsBody := true } EvKind.keydown).invokedDownAction
        = none) := by
  refine ⟨?_, ⟨by decide, by decide⟩, ⟨by decide, by decide⟩⟩
  intro kbs pressed e kb
  rw [matchingKeyBinding, List.find?_eq_some]
  constructor
  · rintro ⟨hp, l₁, l₂, hsplit, hprev⟩
    refine ⟨(bindingMatches_iff pressed e kb).mp hp, l₁, l₂, hsplit, ?_⟩
    intro kb' h' hm
    have hfalse := hprev kb' h'
    rw [(bindingMatches_iff pressed e kb').mpr hm] at hfalse
    simp at hfalse
  · rintro ⟨hm, l₁, l₂, hsplit, hprev⟩
    refine ⟨(bindingMatches_iff pressed e kb).mpr hm, l₁, l₂, hsplit, ?_⟩
    intro kb' h'
    have : ¬ MatchesSpec pressed e kb' := hprev kb' h'
    rw [← bindingMatches_iff pressed e kb'] at this
    simp [this]

/-- C2: a raw binding with at least one non-modifier token normalizes to
exactly one binding whose primaryKey is the last non-modifier token, whose
extraKeys are (as a set) the earlier non-modifier tokens, and whose four
require flags are true iff some token lies in the corresponding modifier
name set; a raw binding with zero non-modifier tokens produces no
normalized binding and is absent from the index. -/
theorem normalizeKeyBinding_shape :
    ∀ kb : KeyBinding,
      (((splitOnPlus kb.keys).filter (fun k => !allModifiers.contains k)) = [] →
        normalizeKeyBinding kb = none ∧
        ∀ code, keyBindingsByPrimaryKey [kb] code = []) ∧
      (∀ pk,
        ((splitOnPlus kb.keys).filter
            (fun k => !allModifiers.contains k)).getLast? = some pk →
        ∃ nb, normalizeKeyBinding kb = some nb ∧
          nb.action = kb.action ∧ nb.primaryKey = pk ∧
          (∀ k, k ∈ nb.extraNonModifierKeys ↔
            k ∈ ((splitOnPlus kb.keys).filter
              (fun k => !allModifiers.contains k)).dropLast) ∧
          (nb.requireCtrl = true ↔ ∃ t ∈ splitOnPlus kb.keys, t ∈ controlModifiers) ∧
          (nb.requireShift = true ↔ ∃ t ∈ splitOnPlus kb.keys, t ∈ shiftModifiers) ∧
          (nb.requireAlt = true ↔ ∃ t ∈ splitOnPlus kb.keys, t ∈ altModifiers) ∧
          (nb.requireMeta = true ↔ ∃ t ∈ splitOnPlus kb.keys, t ∈ metaModifiers)) := by
  intro kb
  constructor
  · intro h
    have hnorm : normalizeKeyBinding kb = none := by
      unfold normalizeKeyBinding
      simp only [h, List.getLast?_nil]
    exact ⟨hnorm, fun code => by simp [keyBindingsByPrimaryKey, hnorm]⟩
  · intro pk h
    have hnorm : normalizeKeyBinding kb =
        some { keys := kb.keys
               action := kb.action
               primaryKey := pk
               extraNonModifierKeys :=
                 ((splitOnPlus kb.keys).filter
                   (fun k => !allModifiers.contains k)).dropLast
               requireCtrl := (splitOnPlus kb.keys).any
                 (fun key => controlModifiers.contains key)
               requireShift := (splitOnPlus kb.keys).any
                 (fun key => shiftModifiers.contains key)
               requireAlt := (splitOnPlus kb.keys).any
                 (fun key => altModifiers.contains key)
               requireMeta := (splitOnPlus kb.keys).any
                 (fun key => metaModifiers.contains key) } := by
      unfold normalizeKeyBinding
      simp only [h]
    refine ⟨_, hnorm, rfl, rfl, fun k => Iff.rfl, ?_, ?_, ?_, ?_⟩ <;>
      simp [List.any_eq_true, contains_iff_mem]

theorem normalizeKeyBinding_shape_witness :
    normalizeKeyBinding { keys := "ctrl+shift", action := "x" } = none ∧
    ∃ nb, normalizeKeyBinding { keys := "b+shift+a", action := "y" } = some nb ∧
      nb.action = "y" ∧ nb.primaryKey = "a" := by
  constructor
  · exact ((normalizeKeyBinding_shape { keys := "ctrl+shift", action := "x" }).1
      (by decide)).1
  · obtain ⟨nb, h1, h2, h3, -, -, -, -, -⟩ :=
      (normalizeKeyBinding_shape { keys := "b+shift+a", action := "y" }).2 "a"
        (by decide)
    exact ⟨nb, h1, h2, h3⟩

theorem onKeyUp2_eq_some (props : HookProps) (action : Option String) (a : String) :
    onKeyUp2 props action = some a ↔
      (action = some a ∧ props.keyUpActionExists a = true) := by
  unfold onKeyUp2
  cases action with
  | none => simp
  | some b =>
      by_cases hb : props.keyUpActionExists b = true <;> simp [hb] <;>
        rintro rfl <;> simp_all

theorem onKeyDown2_escape_open (props : HookProps) (e : KeyEvent)
    (action : Option String) (hopen : props.exportConfirmOpen = true)
    (hesc : e.code = "Escape") :
    onKeyDown2 props e action =
      { invoked := none, defaultPrevented := true, propagationStopped := true,
        closedExportConfirm := true, setAltAction := false } := by
  unfold onKeyDown2
  simp [hopen, hesc]

theorem onKeyDown2_suppressed (props : HookProps) (e : KeyEvent)
    (action : Option String) (hopen : props.exportConfirmOpen = true)
    (hesc : e.code ≠ "Escape") (haction : action ≠ some "export") :
    onKeyDown2 props e action = downNoop := by
  unfold onKeyDown2
  simp [hopen, hesc, haction]

/-- C3: while the export-confirm dialog is open, an Escape key-down closes
the dialog and consumes the event (preventDefault and stopPropagation),
whatever the bindings and the focused element; any other key-down invokes a
handler only if the matched action is exactly "export", and every other
matched action is suppressed — no handler is invoked and the event is not
consumed; in particular, with binding "shift+slash" → openBindingsDialog
and the dialog open, a shifted press of slash dispatches nothing and leaves
the event unconsumed. -/
theorem dialog_gate (props : HookProps) (st : EngineState) (e : KeyEvent)
    (hopen : props.exportConfirmOpen = true) :
    (e.code = "Escape" →
      (handleKeyEvent props st e EvKind.keydown).closedExportConfirm = true ∧
      (handleKeyEvent props st e EvKind.keydown).defaultPrevented = true ∧
      (handleKeyEvent props st e EvKind.keydown).propagationStopped = true ∧
      (handleKeyEvent props st e EvKind.keydown).invokedDownAction = none) ∧
    (∀ a, (handleKeyEvent props st e EvKind.keydown).invokedDownAction = some a →
      a = "export") ∧
    (∀ a, e.code ≠ "Escape" →
      (handleKeyEvent props st e EvKind.keydown).matchedAction = some a →
      a ≠ "export" →
      (handleKeyEvent props st e EvKind.keydown).invokedDownAction = none ∧
      (handleKeyEvent props st e EvKind.keydown).defaultPrevented = false ∧
      (handleKeyEvent props st e EvKind.keydown).propagationStopped = false) ∧
    ((handleKeyEvent (exProps [⟨"shift+slash", "openBindingsDialog"⟩] true)
      initialState
      { code := "slash", ctrlKey := false, shiftKey := true, altKey := false,
        metaKey := false, targetIsBody := true }
      EvKind.keydown).invokedDownAction = none ∧
     (handleKeyEvent (exProps [⟨"shift+slash", "openBindingsDialog"⟩] true)
      initialState
      { code := "slash", ctrlKey := false, shiftKey := true, altKey := false,
        metaKey := false, targetIsBody := true }
      EvKind.keydown).defaultPrevented = false ∧
     (handleKeyEvent (exProps [⟨"shift+slash", "openBindingsDialog"⟩] true)
      initialState
      { code := "slash", ctrlKey := false, shiftKey := true, altKey := false,
        metaKey := false, targetIsBody := true }
      EvKind.keydown).propagationStopped = false) := by
  refine ⟨?_, ?_, ?_, by decide, by decide, by decide⟩
  · intro hesc
    have hmod : allModifiers.contains e.code = false := by rw [hesc]; decide
    rw [handleKeyEvent_keydown_nonmod props st e hmod]
    rw [onKeyDown2_escape_open props e _ hopen hesc]
    simp
  · intro a ha
    by_cases hmod : allModifiers.contains e.code = true
    · rw [handleKeyEvent_modifier props st e EvKind.keydown hmod] at ha
      simp at ha
    · rw [handleKeyEvent_keydown_nonmod props st e
        (Bool.not_eq_true _ ▸ hmod)] at ha
      exact ((onKeyDown2_invoked_iff props e _ a).mp ha).2.2.2.2 hopen
  · intro a hesc hmatch hne
    by_cases hmod : allModifiers.contains e.code = true
    · rw [handleKeyEvent_modifier props st e EvKind.keydown hmod] at hmatch
      cases hmatch
    · rw [handleKeyEvent_keydown_nonmod props st e
        (Bool.not_eq_true _ ▸ hmod)] at hmatch ⊢
      have hact : (matchingKeyBinding props.keyBindings
          (addKey st.pressedNonModifiers e.code) e).map (fun kb => kb.action) =
          some a := hmatch
      rw [onKeyDown2_suppressed props e _ hopen hesc (by rw [hact]; simp [hne])]
      exact ⟨rfl, rfl, rfl⟩

theorem dialog_gate_witness :
    (exProps [] true).exportConfirmOpen = true ∧
    (handleKeyEvent (exProps [] true) initialState
      { code := "Escape", ctrlKey := false, shiftKey := false, altKey := false,
        metaKey := false, targetIsBody := false }
      EvKind.keydown).closedExportConfirm = true ∧
    (handleKeyEvent (exProps [⟨"shift+slash", "openBindingsDialog"⟩] true)
      initialState
      { code := "slash", ctrlKey := false, shiftKey := true, altKey := false,
        metaKey := false, targetIsBody := true }
      EvKind.keydown).defaultPrevented = false := by
  refine ⟨rfl, ?_, ?_⟩
  · exact ((dialog_gate (exProps [] true) initialState
      { code := "Escape", ctrlKey := false, shiftKey := false, altKey := false,
        metaKey := false, targetIsBody := false } rfl).1 rfl).1
  · exact ((dialog_gate (exProps [⟨"shift+slash", "openBindingsDialog"⟩] true)
      initialState
      { code := "slash", ctrlKey := false, shiftKey := true, altKey := false,
        metaKey := false, targetIsBody := true } rfl).2.2.1 "openBindingsDialog"
      (by decide) (by decide) (by decide)).2.1

/-- C4 counterexample: with binding "g" → gotoTime (and a key-up handler for
gotoTime), a key-up of g whose target is NOT the document body still invokes
the on-release handler, refuting the claim that no action handler is
invoked for events targeting other elements. -/
theorem keyup_ignores_target_counterexample :
    (handleKeyEvent (exProps [⟨"g", "gotoTime"⟩] false)
      { altAction := false, pressedNonModifiers := ["g"] }
      { code := "g", ctrlKey := false, shiftKey := false, altKey := false,
        metaKey := false, targetIsBody := false }
      EvKind.keyup).invokedUpAction = some "gotoTime" := by decide

/-- C4 amended: when no blocking dialog is open, the key-down on-trigger
dispatch occurs only if the event's target is document.body (a key-down
targeting any other element invokes no trigger handler), while the key-up
on-release dispatch does not depend on the target at all; concretely,
"ctrl+g" → gotoTime dispatches exactly once and is consumed on a
body-targeted key-down, and dispatches nothing when the target is a text
input. -/
theorem keydown_requires_body_target :
    (∀ (props : HookProps) (st : EngineState) (e : KeyEvent),
      props.exportConfirmOpen = false →
      (handleKeyEvent props st e EvKind.keydown).invokedDownAction.isSome = true →
      e.targetIsBody = true) ∧
    (∀ (props : HookProps) (st : EngineState) (e : KeyEvent) (b : Bool),
      (handleKeyEvent props st { e with targetIsBody := b }
        EvKind.keyup).invokedUpAction =
      (handleKeyEvent props st e EvKind.keyup).invokedUpAction) ∧
    ((handleKeyEvent (exProps [⟨"ctrl+g", "gotoTime"⟩] false) initialState
      { code := "g", ctrlKey := true, shiftKey := false, altKey := false,
        metaKey := false, targetIsBody := true }
      EvKind.keydown).invokedDownAction = some "gotoTime" ∧
     (handleKeyEvent (exProps [⟨"ctrl+g", "gotoTime"⟩] false) initialState
      { code := "g", ctrlKey := true, shiftKey := false, altKey := false,
        metaKey := false, targetIsBody := true }
      EvKind.keydown).defaultPrevented = true ∧
     (handleKeyEvent (exProps [⟨"ctrl+g", "gotoTime"⟩] false) initialState
      { code := "g", ctrlKey := true, shiftKey := false, altKey := false,
        metaKey := false, targetIsBody := true }
      EvKind.keydown).propagationStopped = true) ∧
    ((handleKeyEvent (exProps [⟨"ctrl+g", "gotoTime"⟩] false) initialState
      { code := "g", ctrlKey := true, shiftKey := false, altKey := false,
        metaKey := false, targetIsBody := false }
      EvKind.keydown).invokedDownAction = none ∧
     (handleKeyEvent (exProps [⟨"ctrl+g", "gotoTime"⟩] false) initialState
      { code := "g", ctrlKey := true, shiftKey := false, altKey := false,
        metaKey := false, targetIsBody := false }
      EvKind.keydown).defaultPrevented = false) := by
  refine ⟨?_, ?_, by refine ⟨by decide, by decide, by decide⟩, by decide⟩
  · intro props st e _ hsome
    by_cases hmod : allModifiers.contains e.code = true
    · rw [handleKeyEvent_modifier props st e EvKind.keydown hmod] at hsome
      simp at hsome
    · rw [handleKeyEvent_keydown_nonmod props st e
        (Bool.not_eq_true _ ▸ hmod)] at hsome
      obtain ⟨a, ha⟩ := Option.isSome_iff_exists.mp hsome
      exact ((onKeyDown2_invoked_iff props e _ a).mp ha).2.2.1
  · intro props st e b
    by_cases hmod : allModifiers.contains e.code = true
    · rw [handleKeyEvent_modifier props st e EvKind.keyup hmod,
        handleKeyEvent_modifier props st { e with targetIsBody := b }
          EvKind.keyup hmod]
    · rw [handleKeyEvent_keyup_nonmod props st e (Bool.not_eq_true _ ▸ hmod),
        handleKeyEvent_keyup_nonmod props st { e with targetIsBody := b }
          (Bool.not_eq_true _ ▸ hmod)]
      simp [matchingKeyBinding]

theorem keydown_requires_body_target_witness :
    ({ code := "g", ctrlKey := true, shiftKey := false, altKey := false,
       metaKey := false, targetIsBody := true } : KeyEvent).targetIsBody = true := by
  exact keydown_requires_body_target.1 (exProps [⟨"ctrl+g", "gotoTime"⟩] false)
    initialState
    { code := "g", ctrlKey := true, shiftKey := false, altKey := false,
      metaKey := false, targetIsBody := true } rfl (by decide)

/-- C5: on key-up of a physical Alt key, if the Alt-action flag is set the
event's default is prevented and the flag resets; if it is clear the event
is untouched and the state unchanged; the flag becomes true on key-down
exactly when an action dispatches with the Alt modifier active; concretely,
after an "alt+a" dispatch the first AltLeft key-up is consumed and a second
AltLeft key-up is not. -/
theorem alt_release_suppression :
    (∀ (props : HookProps) (st : EngineState) (e : KeyEvent),
      (e.code = "AltLeft" ∨ e.code = "AltRight") →
      (st.altAction = true →
        (handleKeyEvent props st e EvKind.keyup).defaultPrevented = true ∧
        (handleKeyEvent props st e EvKind.keyup).state.altAction = false) ∧
      (st.altAction = false →
        (handleKeyEvent props st e EvKind.keyup).defaultPrevented = false ∧
        (handleKeyEvent props st e EvKind.keyup).state = st)) ∧
    (∀ (props : HookProps) (st : EngineState) (e : KeyEvent),
      (handleKeyEvent props st e EvKind.keydown).state.altAction = true ↔
        (st.altAction = true ∨
          ((handleKeyEvent props st e EvKind.keydown).invokedDownAction.isSome = true ∧
            e.altKey = true))) ∧
    ((handleKeyEvent (exProps [⟨"alt+a", "actA"⟩] false)
        (handleKeyEvent (exProps [⟨"alt+a", "actA"⟩] false) initialState
          { code := "a", ctrlKey := false, shiftKey := false, altKey := true,
            metaKey := false, targetIsBody := true } EvKind.keydown).state
        { code := "AltLeft", ctrlKey := false, shiftKey := false, altKey := false,
          metaKey := false, targetIsBody := true }
        EvKind.keyup).defaultPrevented = true ∧
      (handleKeyEvent (exProps [⟨"alt+a", "actA"⟩] false)
        (handleKeyEvent (exProps [⟨"alt+a", "actA"⟩] false)
          (handleKeyEvent (exProps [⟨"alt+a", "actA"⟩] false) initialState
            { code := "a", ctrlKey := false, shiftKey := false, altKey := true,
              metaKey := false, targetIsBody := true } EvKind.keydown).state
          { code := "AltLeft", ctrlKey := false, shiftKey := false, altKey := false,
            metaKey := false, targetIsBody := true }
          EvKind.keyup).state
        { code := "AltLeft", ctrlKey := false, shiftKey := false, altKey := false,
          metaKey := false, targetIsBody := true }
        EvKind.keyup).defaultPrevented = false) := by
  refine ⟨?_, ?_, by decide, by decide⟩
  · intro props st e hcode
    have hmod : allModifiers.contains e.code = true := by
      rcases hcode with h | h <;> rw [h] <;> decide
    rw [handleKeyEvent_modifier props st e EvKind.keyup hmod]
    have hc : (e.code == "AltLeft" || e.code == "AltRight") = true := by
      rcases hcode with h | h <;> rw [h] <;> decide
    constructor
    · intro htrue
      simp [hc, htrue]
    · intro hfalse
      obtain ⟨sa, sp⟩ := st
      simp only at hfalse
      subst hfalse
      simp [hc]
  · intro props st e
    by_cases hmod : allModifiers.contains e.code = true
    · rw [handleKeyEvent_modifier props st e EvKind.keydown hmod]
      simp
    · rw [handleKeyEvent_keydown_nonmod props st e (Bool.not_eq_true _ ▸ hmod)]
      simp only [Bool.or_eq_true]
      rw [onKeyDown2_setAltAction]

theorem alt_release_suppression_witness :
    (handleKeyEvent (exProps [] false)
      { altAction := true, pressedNonModifiers := [] }
      { code := "AltLeft", ctrlKey := false, shiftKey := false, altKey := false,
        metaKey := false, targetIsBody := true }
      EvKind.keyup).defaultPrevented = true := by
  exact ((alt_release_suppression.1 (exProps [] false)
    { altAction := true, pressedNonModifiers := [] }
    { code := "AltLeft", ctrlKey := false, shiftKey := false, altKey := false,
      metaKey := false, targetIsBody := true } (Or.inl rfl)).1 rfl).1

/-- C6: within one event, on key-down of a non-modifier code the code is
added to the pressed set before matching (so a chord's own primary key is
visible to its own lookup), and on key-up the code is removed only after
dispatch (so the match feeding the release handler still sees the key as
pressed); concretely the self-chord "a+a" dispatches on a key-down of a
from an empty pressed set, and its release handler fires on key-up of a
after which the pressed set is empty. -/
theorem pressed_ordering_within_event :
    (∀ (props : HookProps) (st : EngineState) (e : KeyEvent),
      allModifiers.contains e.code = false →
      ((handleKeyEvent props st e EvKind.keydown).matchedAction =
        (matchingKeyBinding props.keyBindings
          (addKey st.pressedNonModifiers e.code) e).map (fun kb => kb.action) ∧
       (handleKeyEvent props st e EvKind.keydown).state.pressedNonModifiers =
        addKey st.pressedNonModifiers e.code) ∧
      ((handleKeyEvent props st e EvKind.keyup).matchedAction =
        (matchingKeyBinding props.keyBindings st.pressedNonModifiers e).map
          (fun kb => kb.action) ∧
       (handleKeyEvent props st e EvKind.keyup).state.pressedNonModifiers =
        removeKey st.pressedNonModifiers e.code)) ∧
    ((handleKeyEvent (exProps [⟨"a+a", "selfChord"⟩] false) initialState
      { code := "a", ctrlKey := false, shiftKey := false, altKey := false,
        metaKey := false, targetIsBody := true }
      EvKind.keydown).invokedDownAction = some "selfChord") ∧
    ((handleKeyEvent (exProps [⟨"a+a", "selfChord"⟩] false)
      { altAction := false, pressedNonModifiers := ["a"] }
      { code := "a", ctrlKey := false, shiftKey := false, altKey := false,
        metaKey := false, targetIsBody := true }
      EvKind.keyup).invokedUpAction = some "selfChord" ∧
     (handleKeyEvent (exProps [⟨"a+a", "selfChord"⟩] false)
      { altAction := false, pressedNonModifiers := ["a"] }
      { code := "a", ctrlKey := false, shiftKey := false, altKey := false,
        metaKey := false, targetIsBody := true }
      EvKind.keyup).state.pressedNonModifiers = []) := by
  refine ⟨?_, by decide, by decide, by decide⟩
  intro props st e hmod
  rw [handleKeyEvent_keydown_nonmod props st e hmod,
    handleKeyEvent_keyup_nonmod props st e hmod]
  exact ⟨⟨rfl, rfl⟩, rfl, rfl⟩

theorem pressed_ordering_within_event_witness :
    allModifiers.contains "a" = false ∧
    (handleKeyEvent (exProps [⟨"a+a", "selfChord"⟩] false) initialState
      { code := "a", ctrlKey := false, shiftKey := false, altKey := false,
        metaKey := false, targetIsBody := true }
      EvKind.keydown).state.pressedNonModifiers = addKey [] "a" := by
  refine ⟨by decide, ?_⟩
  exact ((pressed_ordering_within_event.1 (exProps [⟨"a+a", "selfChord"⟩] false)
    initialState
    { code := "a", ctrlKey := false, shiftKey := false, altKey := false,
      metaKey := false, targetIsBody := true } (by decide)).1).2

theorem mem_addKey (l : List KeyCode) (c code : KeyCode) :
    code ∈ addKey l c ↔ (code ∈ l ∨ code = c) := by
  unfold addKey
  split
  next h =>
    have hc : c ∈ l := (contains_iff_mem _ _).mp h
    constructor
    · exact Or.inl
    · rintro (h' | rfl)
      · exact h'
      · exact hc
  next h => simp

theorem mem_removeKey (l : List KeyCode) (c code : KeyCode) :
    code ∈ removeKey l c ↔ (code ∈ l ∧ code ≠ c) := by
  unfold removeKey
  simp [List.mem_filter]

theorem lastEventDown_nil (code : KeyCode) : ¬ LastEventDown code [] := by
  rintro ⟨l₁, e, l₂, heq, -⟩
  exact List.not_mem_nil (HostEvent.key e EvKind.keydown)
    (heq ▸ List.mem_append_right l₁ (List.mem_cons_self _ _))

theorem lastEventDown_cons (code : KeyCode) (ev : HostEvent)
    (rest : List HostEvent) :
    LastEventDown code (ev :: rest) ↔
      ((∃ e, ev = HostEvent.key e EvKind.keydown ∧ e.code = code ∧
          allModifiers.contains code = false ∧
          ∀ ev' ∈ rest, IrrelevantTo code ev') ∨
        LastEventDown code rest) := by
  constructor
  · rintro ⟨l₁, e, l₂, heq, hcode, hmod, hirr⟩
    cases l₁ with
    | nil =>
        simp only [List.nil_append, List.cons.injEq] at heq
        exact Or.inl ⟨e, heq.1, hcode, hmod, heq.2 ▸ hirr⟩
    | cons a l₁' =>
        simp only [List.cons_append, List.cons.injEq] at heq
        exact Or.inr ⟨l₁', e, l₂, heq.2, hcode, hmod, hirr⟩
  · rintro (⟨e, rfl, hcode, hmod, hirr⟩ | ⟨l₁, e, l₂, rfl, hcode, hmod, hirr⟩)
    · exact ⟨[], e, rest, rfl, hcode, hmod, hirr⟩
    · exact ⟨ev :: l₁, e, l₂, rfl, hcode, hmod, hirr⟩

theorem mem_processEvent_key (props : HookProps) (st : EngineState)
    (e : KeyEvent) (k : EvKind) (code : KeyCode) :
    code ∈ (processEvent props st (HostEvent.key e k)).pressedNonModifiers ↔
      (if e.code = code ∧ allModifiers.contains code = false
       then k = EvKind.keydown
       else code ∈ st.pressedNonModifiers) := by
  by_cases hmod : allModifiers.contains e.code = true
  · have hcond : ¬ (e.code = code ∧ allModifiers.contains code = false) := by
      rintro ⟨rfl, hfalse⟩
      rw [hmod] at hfalse
      cases hfalse
    simp only [processEvent, handleKeyEvent_modifier props st e k hmod, hcond,
      if_false]
  · have hmod' : allModifiers.contains e.code = false := Bool.not_eq_true _ ▸ hmod
    have hnin : ¬ e.code ∈ allModifiers := by
      rw [← contains_iff_mem, hmod']; simp
    cases k with
    | keydown =>
        rw [processEvent, handleKeyEvent_keydown_nonmod props st e hmod']
        by_cases hcode : e.code = code
        · subst hcode
          simp [mem_addKey, hmod', hnin]
        · have hcond : ¬ (e.code = code ∧ allModifiers.contains code = false) :=
            fun h => hcode h.1
          simp only [hcond, if_false, mem_addKey]
          constructor
          · rintro (h | rfl)
            · exact h
            · exact absurd rfl hcode
          · exact Or.inl
    | keyup =>
        rw [processEvent, handleKeyEvent_keyup_nonmod props st e hmod']
        by_cases hcode : e.code = code
        · subst hcode
          simp [mem_removeKey, hmod', hnin]
        · have hcond : ¬ (e.code = code ∧ allModifiers.contains code = false) :=
            fun h => hcode h.1
          simp only [hcond, if_false, mem_removeKey]
          constructor
          · exact fun h => h.1
          · exact fun h => ⟨h, fun hh => hcode hh.symm⟩

theorem runEvents_pressed_mem (props : HookProps) (code : KeyCode) :
    ∀ (evs : List HostEvent) (st : EngineState),
      code ∈ (runEvents props st evs).pressedNonModifiers ↔
        (LastEventDown code evs ∨
          (code ∈ st.pressedNonModifiers ∧ ∀ ev ∈ evs, IrrelevantTo code ev)) := by
  intro evs
  induction evs with
  | nil =>
      intro st
      simp [runEvents, lastEventDown_nil]
  | cons ev rest ih =>
      intro st
      have hstep : runEvents props st (ev :: rest) =
          runEvents props (processEvent props st ev) rest := rfl
      rw [hstep, ih (processEvent props st ev), lastEventDown_cons]
      cases ev with
      | blur =>
          simp [processEvent, IrrelevantTo]
      | key e k =>
          rw [mem_processEvent_key]
          by_cases hrel : e.code = code ∧ allModifiers.contains code = false
          · have hirr : ¬ IrrelevantTo code (HostEvent.key e k) := by
              intro h
              rw [h hrel.1] at hrel
              cases hrel.2
            rw [if_pos hrel]
            constructor
            · rintro (hl | ⟨hk, hrest⟩)
              · exact Or.inl (Or.inr hl)
              · subst hk
                exact Or.inl (Or.inl ⟨e, rfl, hrel.1, hrel.2, hrest⟩)
            · rintro ((⟨e', he', -, -, hrest⟩ | hl) | ⟨-, hall⟩)
              · cases he'
                exact Or.inr ⟨rfl, hrest⟩
              · exact Or.inl hl
              · exact absurd (hall _ (List.mem_cons_self _ _)) hirr
          · have hirr : IrrelevantTo code (HostEvent.key e k) := by
              intro hc
              by_contra hmodf
              exact hrel ⟨hc, Bool.not_eq_true _ ▸ hmodf⟩
            rw [if_neg hrel]
            constructor
            · rintro (hl | ⟨hmem, hrest⟩)
              · exact Or.inl (Or.inr hl)
              · refine Or.inr ⟨hmem, ?_⟩
                intro ev' hev'
                rcases List.mem_cons.mp hev' with rfl | h
                · exact hirr
                · exact hrest ev' h
            · rintro ((⟨e', he', hcode', hmod', -⟩ | hl) | ⟨hmem, hall⟩)
              · cases he'
                exact absurd ⟨hcode', hmod'⟩ hrel
              · exact Or.inl hl
              · exact Or.inr ⟨hmem,
                  fun ev' hev' => hall ev' (List.mem_cons.mpr (Or.inr hev'))⟩

/-- C7: starting from the initial state, a code is in the pressed-key set
after a sequence of key-down / key-up / blur occurrences iff the most
recent key event for that code was a key-down of the non-modifier code with
no blur (and no other key event for that code) since; modifier codes are
never added; blur empties the set, so after press-b-then-blur the chord
"b+a" no longer dispatches on a press of a, while without the blur it
does. -/
theorem pressed_set_invariant :
    (∀ (props : HookProps) (evs : List HostEvent) (code : KeyCode),
      code ∈ (runEvents props initialState evs).pressedNonModifiers ↔
        LastEventDown code evs) ∧
    (∀ (props : HookProps) (evs : List HostEvent) (code : KeyCode),
      allModifiers.contains code = true →
      ¬ code ∈ (runEvents props initialState evs).pressedNonModifiers) ∧
    (∀ (props : HookProps) (st : EngineState),
      (processEvent props st HostEvent.blur).pressedNonModifiers = []) ∧
    ((handleKeyEvent (exProps [⟨"b+a", "chordBA"⟩] false)
      (runEvents (exProps [⟨"b+a", "chordBA"⟩] false) initialState
        [HostEvent.key
          { code := "b", ctrlKey := false, shiftKey := false, altKey := false,
            metaKey := false, targetIsBody := true } EvKind.keydown])
      { code := "a", ctrlKey := false, shiftKey := false, altKey := false,
        metaKey := false, targetIsBody := true }
      EvKind.keydown).invokedDownAction = some "chordBA" ∧
     (handleKeyEvent (exProps [⟨"b+a", "chordBA"⟩] false)
      (runEvents (exProps [⟨"b+a", "chordBA"⟩] false) initialState
        [HostEvent.key
          { code := "b", ctrlKey := false, shiftKey := false, altKey := false,
            metaKey := false, targetIsBody := true } EvKind.keydown,
         HostEvent.blur])
      { code := "a", ctrlKey := false, shiftKey := false, altKey := false,
        metaKey := false, targetIsBody := true }
      EvKind.keydown).invokedDownAction = none) := by
  refine ⟨?_, ?_, fun props st => rfl, by decide, by decide⟩
  · intro props evs code
    rw [runEvents_pressed_mem props code evs initialState]
    simp [initialState]
  · intro props evs code hmodtrue hmem
    rw [runEvents_pressed_mem props code evs initialState] at hmem
    rcases hmem with ⟨-, -, -, -, -, hmodfalse, -⟩ | ⟨hmem, -⟩
    · rw [hmodtrue] at hmodfalse
      cases hmodfalse
    · simp [initialState] at hmem

theorem pressed_set_invariant_witness :
    ("KeyB" ∈ (runEvents (exProps [] false) initialState
      [HostEvent.key
        { code := "KeyB", ctrlKey := false, shiftKey := false, altKey := false,
          metaKey := false, targetIsBody := true } EvKind.keydown]).pressedNonModifiers) ∧
    allModifiers.contains "ShiftLeft" = true ∧
    ¬ "ShiftLeft" ∈ (runEvents (exProps [] false) initialState
      [HostEvent.key
        { code := "ShiftLeft", ctrlKey := false, shiftKey := true, altKey := false,
          metaKey := false, targetIsBody := true } EvKind.keydown]).pressedNonModifiers := by
  refine ⟨?_, by decide, ?_⟩
  · exact (pressed_set_invariant.1 (exProps [] false)
      [HostEvent.key
        { code := "KeyB", ctrlKey := false, shiftKey := false, altKey := false,
          metaKey := false, targetIsBody := true } EvKind.keydown] "KeyB").mpr
      ⟨[],
        { code := "KeyB", ctrlKey := false, shiftKey := false, altKey := false,
          metaKey := false, targetIsBody := true }, [], rfl, rfl, by decide,
        by simp⟩
  · exact pressed_set_invariant.2.1 (exProps [] false)
      [HostEvent.key
        { code := "ShiftLeft", ctrlKey := false, shiftKey := true, altKey := false,
          metaKey := false, targetIsBody := true } EvKind.keydown] "ShiftLeft"
      (by decide)

/-- C8 counterexample: while the export-confirm dialog is open, an Escape
key-down is consumed (default prevented and propagation stopped) although
no candidate binding matched and no handler was resolved or invoked — so
"consumed iff matched, gated and invoked" fails as stated. -/
theorem consumed_iff_dispatch_counterexample :
    (handleKeyEvent (exProps [] true) initialState
      { code := "Escape", ctrlKey := false, shiftKey := false, altKey := false,
        metaKey := false, targetIsBody := true }
      EvKind.keydown).defaultPrevented = true ∧
    (handleKeyEvent (exProps [] true) initialState
      { code := "Escape", ctrlKey := false, shiftKey := false, altKey := false,
        metaKey := false, targetIsBody := true }
      EvKind.keydown).propagationStopped = true ∧
    (handleKeyEvent (exProps [] true) initialState
      { code := "Escape", ctrlKey := false, shiftKey := false, altKey := false,
        metaKey := false, targetIsBody := true }
      EvKind.keydown).matchedAction = none ∧
    (handleKeyEvent (exProps [] true) initialState
      { code := "Escape", ctrlKey := false, shiftKey := false, altKey := false,
        metaKey := false, targetIsBody := true }
      EvKind.keydown).invokedDownAction = none := by decide

/-- C8 amended: apart from the Escape-closes-dialog path (which consumes
unconditionally while the dialog is open), a key-down is consumed iff a
candidate binding matched, the gates passed and the registry resolved a
non-null handler which was invoked; and when no candidate matches, no
action fires and the event is left unconsumed. -/
theorem consumed_iff_dispatch (props : HookProps) (st : EngineState)
    (e : KeyEvent)
    (h : ¬ (props.exportConfirmOpen = true ∧ e.code = "Escape")) :
    ((handleKeyEvent props st e EvKind.keydown).defaultPrevented =
      (handleKeyEvent props st e EvKind.keydown).propagationStopped) ∧
    ((handleKeyEvent props st e EvKind.keydown).defaultPrevented = true ↔
      (handleKeyEvent props st e EvKind.keydown).invokedDownAction.isSome = true) ∧
    (∀ a, (handleKeyEvent props st e EvKind.keydown).invokedDownAction = some a ↔
      ((handleKeyEvent props st e EvKind.keydown).matchedAction = some a ∧
        props.actionResolves a = true ∧ e.targetIsBody = true ∧
        (props.exportConfirmOpen = true → a = "export"))) ∧
    ((handleKeyEvent props st e EvKind.keydown).matchedAction = none →
      (handleKeyEvent props st e EvKind.keydown).invokedDownAction = none ∧
      (handleKeyEvent props st e EvKind.keydown).defaultPrevented = false ∧
      (handleKeyEvent props st e EvKind.keydown).propagationStopped = false) := by
  by_cases hmod : allModifiers.contains e.code = true
  · rw [handleKeyEvent_modifier props st e EvKind.keydown hmod]
    simp
  · rw [handleKeyEvent_keydown_nonmod props st e (Bool.not_eq_true _ ▸ hmod)]
    refine ⟨(onKeyDown2_consumed props e _).1, ?_, ?_, ?_⟩
    · rw [(onKeyDown2_consumed props e _).2]
      constructor
      · rintro (hs | hoe)
        · exact hs
        · exact absurd hoe h
      · exact Or.inl
    · intro a
      rw [onKeyDown2_invoked_iff]
      constructor
      · rintro ⟨ha, hres, ht, -, hexp⟩
        exact ⟨ha, hres, ht, hexp⟩
      · rintro ⟨ha, hres, ht, hexp⟩
        exact ⟨ha, hres, ht, h, hexp⟩
    · intro hnone
      have hnone' : (matchingKeyBinding props.keyBindings
          (addKey st.pressedNonModifiers e.code) e).map (fun kb => kb.action) =
          (none : Option String) := hnone
      have hinv : (onKeyDown2 props e
          ((matchingKeyBinding props.keyBindings
            (addKey st.pressedNonModifiers e.code) e).map
              (fun kb => kb.action))).invoked = none := by
        cases hcase : (onKeyDown2 props e
            ((matchingKeyBinding props.keyBindings
              (addKey st.pressedNonModifiers e.code) e).map
                (fun kb => kb.action))).invoked with
        | none => rfl
        | some a =>
            have hiff := (onKeyDown2_invoked_iff props e _ a).mp hcase
            rw [hnone'] at hiff
            cases hiff.1
      have hdp : (onKeyDown2 props e
          ((matchingKeyBinding props.keyBindings
            (addKey st.pressedNonModifiers e.code) e).map
              (fun kb => kb.action))).defaultPrevented = false := by
        by_contra hc
        rw [Bool.not_eq_false] at hc
        rcases ((onKeyDown2_consumed props e _).2).mp hc with hs | hoe
        · rw [hinv] at hs
          cases hs
        · exact h hoe
      have hps : (onKeyDown2 props e
          ((matchingKeyBinding props.keyBindings
            (addKey st.pressedNonModifiers e.code) e).map
              (fun kb => kb.action))).propagationStopped = false := by
        rw [← (onKeyDown2_consumed props e _).1]
        exact hdp
      exact ⟨hinv, hdp, hps⟩

theorem consumed_iff_dispatch_witness :
    (handleKeyEvent (exProps [⟨"ctrl+g", "gotoTime"⟩] false) initialState
      { code := "g", ctrlKey := true, shiftKey := false, altKey := false,
        metaKey := false, targetIsBody := true }
      EvKind.keydown).defaultPrevented = true := by
  exact (consumed_iff_dispatch (exProps [⟨"ctrl+g", "gotoTime"⟩] false)
    initialState
    { code := "g", ctrlKey := true, shiftKey := false, altKey := false,
      metaKey := false, targetIsBody := true } (by decide)).2.1.mpr (by decide)

/-- C9 counterexample: the raw binding with the empty combination string is
NOT excluded — it normalizes (its primary key is the empty string) and is
present in the index under the empty-string code. -/
theorem malformed_excluded_counterexample :
    (normalizeKeyBinding { keys := "", action := "x" }).isSome = true ∧
    keyBindingsByPrimaryKey [{ keys := "", action := "x" }] "" ≠ [] := by decide

/-- C9 amended: a raw binding is excluded from the index iff every token of
its combination is a known modifier name; in particular the empty
combination yields a normalized binding whose primary key is the empty
string, and an unknown modifier token (e.g. "bogus" in "bogus+a") is
treated as a non-modifier key and kept as an extra key — such malformed
bindings are included (silently, without surfacing a fault), merely
unmatchable by real key events. -/
theorem malformed_bindings_included :
    (∀ kb : KeyBinding, normalizeKeyBinding kb = none ↔
      (splitOnPlus kb.keys).all (fun t => allModifiers.contains t) = true) ∧
    (normalizeKeyBinding { keys := "", action := "x" }).map
      (fun nb => nb.primaryKey) = some "" ∧
    (normalizeKeyBinding { keys := "bogus+a", action := "y" }).map
      (fun nb => (nb.primaryKey, nb.extraNonModifierKeys)) =
      some ("a", ["bogus"]) := by
  refine ⟨?_, by decide, by decide⟩
  intro kb
  unfold normalizeKeyBinding
  dsimp only
  split
  next h =>
    have hnil : (splitOnPlus kb.keys).filter
        (fun key => !allModifiers.contains key) = [] :=
      List.getLast?_eq_none_iff.mp h
    rw [List.filter_eq_nil_iff] at hnil
    simp only [List.all_eq_true, true_iff]
    intro t ht
    have := hnil t ht
    simpa using this
  next pk h =>
    simp only [reduceCtorEq, false_iff]
    intro hall
    rw [List.all_eq_true] at hall
    have hnil : (splitOnPlus kb.keys).filter
        (fun key => !allModifiers.contains key) = [] := by
      rw [List.filter_eq_nil_iff]
      intro a ha
      simp [(contains_iff_mem _ _).mp (hall a ha)]
    rw [hnil] at h
    cases h

theorem matchingKeyBinding_mem (kbs : List KeyBinding)
    (pressed : List KeyCode) (e : KeyEvent) (kb : NormalizedKeyBinding)
    (h : matchingKeyBinding kbs pressed e = some kb) :
    kb ∈ keyBindingsByPrimaryKey kbs e.code ∧ MatchesSpec pressed e kb := by
  unfold matchingKeyBinding at h
  exact ⟨List.mem_of_find?_eq_some h,
    (bindingMatches_iff pressed e kb).mp (List.find?_some h)⟩

/-- C10: an on-release handler is invoked on key-up of a binding's primary
key only if the full chord condition still holds at the moment of release —
the event's live modifier flags equal the binding's require flags exactly
and all extra keys are still pressed; concretely, for "ctrl+g" → gotoTime,
releasing g with ctrl still held invokes the release handler, while
releasing ctrl first and then g invokes nothing. -/
theorem release_requires_live_chord :
    (∀ (props : HookProps) (st : EngineState) (e : KeyEvent) (a : String),
      (handleKeyEvent props st e EvKind.keyup).invokedUpAction = some a →
      ∃ kb ∈ keyBindingsByPrimaryKey props.keyBindings e.code,
        kb.action = a ∧ kb.requireCtrl = e.ctrlKey ∧ kb.requireShift = e.shiftKey ∧
        kb.requireAlt = e.altKey ∧ kb.requireMeta = e.metaKey ∧
        (∀ k ∈ kb.extraNonModifierKeys, k ∈ st.pressedNonModifiers) ∧
        props.keyUpActionExists a = true) ∧
    ((handleKeyEvent (exProps [⟨"ctrl+g", "gotoTime"⟩] false)
      { altAction := false, pressedNonModifiers := ["g"] }
      { code := "g", ctrlKey := true, shiftKey := false, altKey := false,
        metaKey := false, targetIsBody := true }
      EvKind.keyup).invokedUpAction = some "gotoTime") ∧
    ((handleKeyEvent (exProps [⟨"ctrl+g", "gotoTime"⟩] false)
      { altAction := false, pressedNonModifiers := ["g"] }
      { code := "g", ctrlKey := false, shiftKey := false, altKey := false,
        metaKey := false, targetIsBody := true }
      EvKind.keyup).invokedUpAction = none) := by
  refine ⟨?_, by decide, by decide⟩
  intro props st e a ha
  by_cases hmod : allModifiers.contains e.code = true
  · rw [handleKeyEvent_modifier props st e EvKind.keyup hmod] at ha
    cases ha
  · rw [handleKeyEvent_keyup_nonmod props st e (Bool.not_eq_true _ ▸ hmod)] at ha
    have ha' : onKeyUp2 props ((matchingKeyBinding props.keyBindings
        st.pressedNonModifiers e).map (fun kb => kb.action)) = some a := ha
    obtain ⟨hmap, hexists⟩ := (onKeyUp2_eq_some props _ a).mp ha'
    obtain ⟨kb, hfind, haction⟩ := Option.map_eq_some'.mp hmap
    obtain ⟨hmem, hc, hs, halt, hm, hextra⟩ :=
      matchingKeyBinding_mem props.keyBindings st.pressedNonModifiers e kb hfind
    exact ⟨kb, hmem, haction, hc, hs, halt, hm, hextra, hexists⟩

theorem release_requires_live_chord_witness :
    ∃ kb ∈ keyBindingsByPrimaryKey [⟨"ctrl+g", "gotoTime"⟩] "g",
      kb.action = "gotoTime" ∧ kb.requireCtrl = true ∧ kb.requireShift = false ∧
      kb.requireAlt = false ∧ kb.requireMeta = false ∧
      (∀ k ∈ kb.extraNonModifierKeys, k ∈ ["g"]) ∧
      (exProps [⟨"ctrl+g", "gotoTime"⟩] false).keyUpActionExists "gotoTime" = true := by
  exact release_requires_live_chord.1 (exProps [⟨"ctrl+g", "gotoTime"⟩] false)
    { altAction := false, pressedNonModifiers := ["g"] }
    { code := "g", ctrlKey := true, shiftKey := false, altKey := false,
      metaKey := false, targetIsBody := true } "gotoTime" (by decide)

end UseKeyboard
